import Mathlib

/-!
Shallow embedding of the slot-scoring engine in `buffer-project/scoring.js`,
together with theorems checking the specified properties of its range tests,
band classification, blocking, aggregation and ranking.

Modelling conventions:
* JS numbers arising from `Number()` on strings may be `NaN`; they are embedded
  as `Option Int` with `none` standing for `NaN`.  Every comparison involving
  `NaN` is false in JS, including `NaN === NaN`; the `js*` helpers below encode
  that table.  All other numeric values in the engine (minutes of day, scores,
  counters) are genuine integers.
* JS strings are Lean `String`s; the splitting and digit-parsing used by
  `parseHHMMToMinutes` is carried out on the underlying character list so that
  it stays kernel-computable.  `jsNumberOfChars` models `Number()` restricted
  to the decimal-digit strings that occur in "HH:MM" fields: the empty string
  yields 0 (as in JS) and any string with a non-digit yields `NaN`.
* Optional / absent JS fields (`timezone`, `team`, `preference`, `date`,
  `noMeetingWindows`) are embedded as `Option`; JS truthiness of an optional
  string (absent and `""` are falsy) is `truthyStr`.
* The Luxon-based `localMinutesFromUtcSlot` is the black-box Time Conversion
  Adapter: scoring is parameterized over a conversion function `TimeConv`
  producing the local minute-of-day, local date and label for a participant.
* `Array.prototype.sort` with a consistent comparator is a stable sort by
  `cmp a b ≤ 0`; `rankSlots` is embedded with `List.mergeSort`.
* The field `end` of ranges and windows is renamed `stop` (`end` is a Lean
  keyword).
-/

namespace BufferScoring

/-- One band of the scoring rules: `{ start, end, score }` in local minutes. -/
structure RangeRule where
  start : Int
  stop : Int
  score : Int
deriving DecidableEq

/-- A preference-boost range: `{ start, end, boost }` in local minutes. -/
structure BoostRange where
  start : Int
  stop : Int
  boost : Int
deriving DecidableEq

/-- The rule set (`DEFAULT_RULES` shape) of scoring.js. -/
structure Rules where
  green : RangeRule
  yellow1 : RangeRule
  yellow2 : RangeRule
  redScore : Int
  blockedScore : Int
  earlyBirdBoostRange : BoostRange
  nightOwlBoostRange : BoostRange
deriving DecidableEq

/-- `DEFAULT_RULES` from scoring.js. -/
def DEFAULT_RULES : Rules :=
  { green := { start := 9 * 60, stop := 18 * 60, score := 3 },
    yellow1 := { start := 6 * 60 + 30, stop := 9 * 60, score := 2 },
    yellow2 := { start := 18 * 60, stop := 23 * 60 + 30, score := 2 },
    redScore := 0,
    blockedScore := -100,
    earlyBirdBoostRange := { start := 7 * 60, stop := 10 * 60, boost := 1 },
    nightOwlBoostRange := { start := 18 * 60, stop := 22 * 60, boost := 1 } }

/-- A blocked window `{ start, end, date? }`; `start`/`stop` are "HH:MM"
strings, `date` an optional "YYYY-MM-DD" scope. -/
structure Window where
  start : String
  stop : String
  date : Option String
deriving DecidableEq

/-- A participant record from users.json, with the fields scoring.js reads. -/
structure User where
  name : String
  timezone : Option String
  team : Option String
  preference : Option String
  noMeetingWindows : Option (List Window)
deriving DecidableEq

/-- JS truthiness of an optional string field: absent and `""` are falsy. -/
def truthyStr : Option String → Bool
  | none => false
  | some s => s != ""

/-- JS `===` on possibly-`NaN` numbers: `NaN` compares unequal to everything,
itself included. -/
def jsEq : Option Int → Option Int → Bool
  | some a, some b => a == b
  | _, _ => false

/-- JS `<` on possibly-`NaN` numbers: any comparison with `NaN` is false. -/
def jsLt : Option Int → Option Int → Bool
  | some a, some b => a < b
  | _, _ => false

/-- JS `>=` on possibly-`NaN` numbers: any comparison with `NaN` is false. -/
def jsGe : Option Int → Option Int → Bool
  | some a, some b => b ≤ a
  | _, _ => false

/-- `isInRange(localMin, start, end)` from scoring.js, at possibly-`NaN`
bounds (the bounds coming from `parseHHMMToMinutes` can be `NaN`):
full-day when `start === end`, half-open `[start, end)` when `start < end`,
wrap past midnight otherwise. -/
def isInRangeJS (localMin start stop : Option Int) : Bool :=
  if jsEq start stop then true
  else if jsLt start stop then jsGe localMin start && jsLt localMin stop
  else jsGe localMin start || jsLt localMin stop

/-- `isInRange` at genuine integer arguments, as used with the rule-set
ranges (which are plain integer constants). -/
def isInRange (localMin start stop : Int) : Bool :=
  isInRangeJS (some localMin) (some start) (some stop)

/-- JS `split(":")` on the underlying character list of a string. -/
def splitCharsOnColon : List Char → List (List Char)
  | [] => [[]]
  | c :: cs =>
    let rest := splitCharsOnColon cs
    if c = ':' then [] :: rest
    else
      match rest with
      | r :: rs => (c :: r) :: rs
      | [] => [[c]]

/-- JS `Number()` on a "HH"/"MM" field, restricted to decimal-digit strings:
`""` evaluates to 0, a nonempty digit string to its value, and anything
containing a non-digit to `NaN` (`none`). -/
def jsNumberOfChars (acc : Nat) : List Char → Option Int
  | [] => some (acc : Int)
  | c :: cs =>
    if c.isDigit then jsNumberOfChars (acc * 10 + (c.toNat - '0'.toNat)) cs
    else none

/-- `parseHHMMToMinutes` from scoring.js: split on ":", apply `Number` to the
pieces, return `hh * 60 + (mm || 0)`.  A `NaN` (or missing) minute part is
coalesced to 0 by `||`; a `NaN` hour makes the whole result `NaN`. -/
def parseHHMMToMinutes (hhmm : String) : Option Int :=
  let parts := (splitCharsOnColon hhmm.data).map (jsNumberOfChars 0)
  let hh : Option Int := (parts.getD 0 none)
  let mm : Int :=
    match parts.getD 1 none with
    | some m => m
    | none => 0
  hh.map (fun h => h * 60 + mm)

/-- The result record of `getBaseScoreAndBand`. -/
structure BandResult where
  baseScore : Int
  band : String
deriving DecidableEq

/-- `getBaseScoreAndBand(localMin, rules)` from scoring.js: green range
first, then either yellow range (both yield `yellow1.score`), else red. -/
def getBaseScoreAndBand (localMin : Int) (rules : Rules) : BandResult :=
  if isInRange localMin rules.green.start rules.green.stop then
    { baseScore := rules.green.score, band := "green" }
  else if isInRange localMin rules.yellow1.start rules.yellow1.stop
      || isInRange localMin rules.yellow2.start rules.yellow2.stop then
    { baseScore := rules.yellow1.score, band := "yellow" }
  else
    { baseScore := rules.redScore, band := "red" }

/-- `preferenceBoost(localMin, preference, rules)` from scoring.js. -/
def preferenceBoost (localMin : Int) (preference : Option String) (rules : Rules) : Int :=
  if preference == some "early_bird" then
    if isInRange localMin rules.earlyBirdBoostRange.start rules.earlyBirdBoostRange.stop then
      rules.earlyBirdBoostRange.boost
    else 0
  else if preference == some "night_owl" then
    if isInRange localMin rules.nightOwlBoostRange.start rules.nightOwlBoostRange.stop then
      rules.nightOwlBoostRange.boost
    else 0
  else 0

/-- The body of the `some(w => ...)` callback in `isBlocked`: a window with a
non-null, non-empty date matches only when the local date string equals it;
then the range test runs on the parsed window bounds. -/
def windowMatches (localMin : Int) (localDateStr : Option String) (w : Window) : Bool :=
  (match w.date with
   | some d =>
     if d != "" then
       match localDateStr with
       | none => false
       | some ld => ld == d
     else true
   | none => true)
  && isInRangeJS (some localMin) (parseHHMMToMinutes w.start) (parseHHMMToMinutes w.stop)

/-- `isBlocked(localMin, noMeetingWindows, localDateStr)` from scoring.js;
`none` models an absent (non-array) window list. -/
def isBlocked (localMin : Int) (noMeetingWindows : Option (List Window))
    (localDateStr : Option String) : Bool :=
  match noMeetingWindows with
  | none => false
  | some ws => ws.any (windowMatches localMin localDateStr)

/-- Result of `localMinutesFromUtcSlot`: local minute-of-day, ISO timestamp,
"HH:mm" label and "yyyy-MM-dd" local date. -/
structure LocalInfo where
  localMin : Int
  localISO : String
  localLabel : String
  localDate : String
deriving DecidableEq

/-- The Time Conversion Adapter (`localMinutesFromUtcSlot`, wrapping Luxon):
`(dateISO, utcStartMin, timezone) → local info`.  Scoring is parameterized
over it since the timezone library is an external black box. -/
abbrev TimeConv := String → Int → Option String → LocalInfo

/-- The options object of `scoreSlots48`.  `dateISO` is a required field of
the embedding (its JS default reads the current clock, which is impure);
the remaining defaults are those of scoring.js. -/
structure Opts where
  dateISO : String
  rules : Rules := DEFAULT_RULES
  selectedNames : Option (List String) := none
  team : Option String := none
  excludeNames : Option (List String) := none
  includeYourselfName : Option String := none
  excludeNullTimezones : Bool := true
  includeRedParticipants : Bool := true
deriving DecidableEq

/-- `excludeSet.has(name)` with the JS optional-chaining reading: a null
exclude list never contains anything. -/
def excludeHas (o : Opts) (name : String) : Bool :=
  match o.excludeNames with
  | some ex => ex.contains name
  | none => false

/-- The filter predicate of `scoreSlots48`: exclusion set, non-empty
selection set, team and timezone-presence tests, in source order. -/
def keepUser (o : Opts) (u : User) : Bool :=
  if excludeHas o u.name then false
  else if (match o.selectedNames with
           | some sel => !sel.isEmpty && !sel.contains u.name
           | none => false) then false
  else if (match o.team with
           | some t => t != "" && u.team != some t
           | none => false) then false
  else if o.excludeNullTimezones && !truthyStr u.timezone then false
  else true

/-- Participant selection of `scoreSlots48`: filter, then conditionally
append the "yourself" participant (`[...participants, yourself]`). -/
def buildParticipants (users : List User) (o : Opts) : List User :=
  let participants := users.filter (keepUser o)
  match o.includeYourselfName with
  | none => participants
  | some n =>
    if n != "" && !excludeHas o n then
      match users.find? (fun u => u.name == n) with
      | none => participants
      | some yourself =>
        if (truthyStr yourself.timezone || !o.excludeNullTimezones)
            && (participants.find? (fun p => p.name == n)).isNone then
          participants ++ [yourself]
        else participants
    else participants

/-- An entry of a slot's `redParticipants` list. -/
structure RedParticipant where
  name : String
  timezone : Option String
  localLabel : String
deriving DecidableEq

/-- One per-slot record of the `scoreSlots48` output. -/
structure SlotResult where
  utcStartMin : Int
  totalScore : Int
  greenCount : Nat
  yellowCount : Nat
  redCount : Nat
  blockedCount : Nat
  participantsCount : Nat
  redParticipants : Option (List RedParticipant)
deriving DecidableEq

/-- The mutable per-slot accumulators of the participant loop. -/
structure SlotAcc where
  totalScore : Int
  greenCount : Nat
  yellowCount : Nat
  redCount : Nat
  blockedCount : Nat
  redParticipants : Option (List RedParticipant)
deriving DecidableEq

/-- The accumulator initialisation at the top of a slot iteration. -/
def initAcc (includeRed : Bool) : SlotAcc :=
  { totalScore := 0, greenCount := 0, yellowCount := 0, redCount := 0,
    blockedCount := 0,
    redParticipants := if includeRed then some [] else none }

/-- One iteration of the `for (const user of participants)` loop: a blocked
participant adds the blocked penalty and `continue`s; otherwise the band is
classified, base score plus boost is added, and the matching counter (and,
when collected, the red-participant list) is updated. -/
def stepUser (conv : TimeConv) (dateISO : String) (rules : Rules) (utcStartMin : Int)
    (acc : SlotAcc) (user : User) : SlotAcc :=
  let li := conv dateISO utcStartMin user.timezone
  if isBlocked li.localMin user.noMeetingWindows (some li.localDate) then
    { acc with totalScore := acc.totalScore + rules.blockedScore,
               blockedCount := acc.blockedCount + 1 }
  else
    let br := getBaseScoreAndBand li.localMin rules
    let newTotal := acc.totalScore + br.baseScore
        + preferenceBoost li.localMin user.preference rules
    if br.band == "green" then
      { acc with totalScore := newTotal, greenCount := acc.greenCount + 1 }
    else if br.band == "yellow" then
      { acc with totalScore := newTotal, yellowCount := acc.yellowCount + 1 }
    else
      { acc with totalScore := newTotal, redCount := acc.redCount + 1,
                 redParticipants := acc.redParticipants.map
                   (fun l => l ++ [{ name := user.name, timezone := user.timezone,
                                     localLabel := li.localLabel }]) }

/-- The slot record built for one UTC offset. -/
def slotFor (conv : TimeConv) (dateISO : String) (rules : Rules) (includeRed : Bool)
    (participants : List User) (utcStartMin : Int) : SlotResult :=
  let acc := participants.foldl (stepUser conv dateISO rules utcStartMin) (initAcc includeRed)
  { utcStartMin := utcStartMin, totalScore := acc.totalScore,
    greenCount := acc.greenCount, yellowCount := acc.yellowCount,
    redCount := acc.redCount, blockedCount := acc.blockedCount,
    participantsCount := participants.length,
    redParticipants := acc.redParticipants }

/-- `generateUtcSlots48()`: the 48 half-hour UTC offsets 0, 30, …, 1410. -/
def generateUtcSlots48 : List Int := (List.range 48).map (fun i => (i : Int) * 30)

/-- The `{ dateISO, participants, slots }` result of `scoreSlots48`. -/
structure ScoreResult where
  dateISO : String
  participants : List User
  slots : List SlotResult
deriving DecidableEq

/-- `scoreSlots48(users, opts)` from scoring.js, parameterized over the Time
Conversion Adapter. -/
def scoreSlots48 (conv : TimeConv) (users : List User) (o : Opts) : ScoreResult :=
  let participants := buildParticipants users o
  { dateISO := o.dateISO,
    participants := participants,
    slots := generateUtcSlots48.map
      (slotFor conv o.dateISO o.rules o.includeRedParticipants participants) }

/-- The comparator of `rankSlots`: blocked count ascending, red count
ascending, total score descending, green count descending. -/
def slotCmp (a b : SlotResult) : Int :=
  if a.blockedCount ≠ b.blockedCount then (a.blockedCount : Int) - (b.blockedCount : Int)
  else if a.redCount ≠ b.redCount then (a.redCount : Int) - (b.redCount : Int)
  else if a.totalScore ≠ b.totalScore then b.totalScore - a.totalScore
  else (b.greenCount : Int) - (a.greenCount : Int)

/-- "`a` does not have to come after `b`" under the comparator; sorting a JS
array with a consistent comparator `cmp` is the stable sort by `cmp a b ≤ 0`. -/
def slotLe (a b : SlotResult) : Bool := decide (slotCmp a b ≤ 0)

/-- `rankSlots(slots)` from scoring.js: `[...slots].sort(cmp)`, i.e. a stable
sort of a copy of the input by the comparator. -/
def rankSlots (slots : List SlotResult) : List SlotResult :=
  slots.mergeSort slotLe

/-- A participant's score contribution to one slot: the blocked penalty when
blocked, otherwise base score plus preference boost. -/
def userContribution (conv : TimeConv) (dateISO : String) (rules : Rules)
    (utcStartMin : Int) (u : User) : Int :=
  let li := conv dateISO utcStartMin u.timezone
  if isBlocked li.localMin u.noMeetingWindows (some li.localDate) then rules.blockedScore
  else (getBaseScoreAndBand li.localMin rules).baseScore
      + preferenceBoost li.localMin u.preference rules

/-- Whether a participant is blocked at a given UTC slot. -/
def userBlockedAt (conv : TimeConv) (dateISO : String) (utcStartMin : Int) (u : User) : Bool :=
  let li := conv dateISO utcStartMin u.timezone
  isBlocked li.localMin u.noMeetingWindows (some li.localDate)

/-- The band a participant's local time classifies into at a given UTC slot. -/
def userBandAt (conv : TimeConv) (dateISO : String) (rules : Rules)
    (utcStartMin : Int) (u : User) : String :=
  (getBaseScoreAndBand (conv dateISO utcStartMin u.timezone).localMin rules).band

/-- Not blocked and classified green. -/
def userGreen (conv : TimeConv) (dateISO : String) (rules : Rules)
    (utcStartMin : Int) (u : User) : Bool :=
  !userBlockedAt conv dateISO utcStartMin u
    && (userBandAt conv dateISO rules utcStartMin u == "green")

/-- Not blocked and classified yellow. -/
def userYellow (conv : TimeConv) (dateISO : String) (rules : Rules)
    (utcStartMin : Int) (u : User) : Bool :=
  !userBlockedAt conv dateISO utcStartMin u
    && (userBandAt conv dateISO rules utcStartMin u == "yellow")

/-- Not blocked and classified red. -/
def userRed (conv : TimeConv) (dateISO : String) (rules : Rules)
    (utcStartMin : Int) (u : User) : Bool :=
  !userBlockedAt conv dateISO utcStartMin u
    && (userBandAt conv dateISO rules utcStartMin u == "red")

/-! ## Helper lemmas -/

/-- The band classifier only ever produces the strings "green", "yellow", "red". -/
theorem getBaseScoreAndBand_band_cases (m : Int) (r : Rules) :
    (getBaseScoreAndBand m r).band = "green" ∨ (getBaseScoreAndBand m r).band = "yellow"
      ∨ (getBaseScoreAndBand m r).band = "red" := by
  unfold getBaseScoreAndBand
  split_ifs <;> simp

/-- One loop iteration adds exactly the participant's contribution to the total. -/
theorem stepUser_totalScore (conv : TimeConv) (dateISO : String) (rules : Rules)
    (utc : Int) (acc : SlotAcc) (u : User) :
    (stepUser conv dateISO rules utc acc u).totalScore
      = acc.totalScore + userContribution conv dateISO rules utc u := by
  simp only [stepUser, userContribution]
  split_ifs <;> simp <;> ring

/-- One loop iteration increments the blocked counter iff the participant is blocked. -/
theorem stepUser_blockedCount (conv : TimeConv) (dateISO : String) (rules : Rules)
    (utc : Int) (acc : SlotAcc) (u : User) :
    (stepUser conv dateISO rules utc acc u).blockedCount
      = acc.blockedCount + (if userBlockedAt conv dateISO utc u then 1 else 0) := by
  simp only [stepUser, userBlockedAt]
  split_ifs <;> simp_all

/-- One loop iteration increments the green counter iff unblocked and green. -/
theorem stepUser_greenCount (conv : TimeConv) (dateISO : String) (rules : Rules)
    (utc : Int) (acc : SlotAcc) (u : User) :
    (stepUser conv dateISO rules utc acc u).greenCount
      = acc.greenCount + (if userGreen conv dateISO rules utc u then 1 else 0) := by
  simp only [stepUser, userGreen, userBlockedAt, userBandAt]
  split_ifs <;> simp_all

/-- One loop iteration increments the yellow counter iff unblocked and yellow. -/
theorem stepUser_yellowCount (conv : TimeConv) (dateISO : String) (rules : Rules)
    (utc : Int) (acc : SlotAcc) (u : User) :
    (stepUser conv dateISO rules utc acc u).yellowCount
      = acc.yellowCount + (if userYellow conv dateISO rules utc u then 1 else 0) := by
  simp only [stepUser, userYellow, userBlockedAt, userBandAt]
  split_ifs <;> simp_all

/-- One loop iteration increments the red counter iff unblocked and red. -/
theorem stepUser_redCount (conv : TimeConv) (dateISO : String) (rules : Rules)
    (utc : Int) (acc : SlotAcc) (u : User) :
    (stepUser conv dateISO rules utc acc u).redCount
      = acc.redCount + (if userRed conv dateISO rules utc u then 1 else 0) := by
  simp only [stepUser, userRed, userBlockedAt, userBandAt]
  rcases getBaseScoreAndBand_band_cases (conv dateISO utc u.timezone).localMin rules with h | h | h <;>
    split_ifs <;> simp_all

/-- The participant fold is characterised by a sum of contributions and four
occurrence counts. -/
theorem foldl_stepUser_spec (conv : TimeConv) (dateISO : String) (rules : Rules) (utc : Int) :
    ∀ (l : List User) (acc : SlotAcc),
      (l.foldl (stepUser conv dateISO rules utc) acc).totalScore
          = acc.totalScore + (l.map (userContribution conv dateISO rules utc)).sum
      ∧ (l.foldl (stepUser conv dateISO rules utc) acc).blockedCount
          = acc.blockedCount + l.countP (userBlockedAt conv dateISO utc)
      ∧ (l.foldl (stepUser conv dateISO rules utc) acc).greenCount
          = acc.greenCount + l.countP (userGreen conv dateISO rules utc)
      ∧ (l.foldl (stepUser conv dateISO rules utc) acc).yellowCount
          = acc.yellowCount + l.countP (userYellow conv dateISO rules utc)
      ∧ (l.foldl (stepUser conv dateISO rules utc) acc).redCount
          = acc.redCount + l.countP (userRed conv dateISO rules utc)
  | [], acc => by simp
  | u :: l, acc => by
    obtain ⟨h1, h2, h3, h4, h5⟩ :=
      foldl_stepUser_spec conv dateISO rules utc l (stepUser conv dateISO rules utc acc u)
    refine ⟨?_, ?_, ?_, ?_, ?_⟩ <;>
      simp only [List.foldl_cons, List.map_cons, List.sum_cons, List.countP_cons,
        h1, h2, h3, h4, h5, stepUser_totalScore, stepUser_blockedCount,
        stepUser_greenCount, stepUser_yellowCount, stepUser_redCount] <;>
      omega

/-- Every participant falls in exactly one of the four per-slot classes. -/
theorem countP_band_partition (conv : TimeConv) (dateISO : String) (rules : Rules)
    (utc : Int) (l : List User) :
    l.countP (userGreen conv dateISO rules utc) + l.countP (userYellow conv dateISO rules utc)
      + l.countP (userRed conv dateISO rules utc) + l.countP (userBlockedAt conv dateISO utc)
      = l.length := by
  induction l with
  | nil => simp
  | cons u l ih =>
    simp only [List.countP_cons, List.length_cons]
    rcases getBaseScoreAndBand_band_cases (conv dateISO utc u.timezone).localMin rules with h | h | h <;>
      by_cases hb : userBlockedAt conv dateISO utc u <;>
      simp [userGreen, userYellow, userRed, userBandAt, hb, h] <;> omega

/-- The 48 generated UTC offsets. -/
theorem generateUtcSlots48_length : generateUtcSlots48.length = 48 := rfl

/-- The comparator is negative exactly on the lexicographic strict priority
order: blocked ascending, red ascending, score descending, green descending. -/
theorem slotCmp_lt_iff (a b : SlotResult) :
    slotCmp a b < 0 ↔
      (a.blockedCount < b.blockedCount
        ∨ (a.blockedCount = b.blockedCount ∧ (a.redCount < b.redCount
        ∨ (a.redCount = b.redCount ∧ (b.totalScore < a.totalScore
        ∨ (a.totalScore = b.totalScore ∧ b.greenCount < a.greenCount)))))) := by
  unfold slotCmp
  split_ifs <;> omega

/-- The comparator is nonpositive exactly on the lexicographic weak order. -/
theorem slotCmp_le_iff (a b : SlotResult) :
    slotCmp a b ≤ 0 ↔
      (a.blockedCount < b.blockedCount
        ∨ (a.blockedCount = b.blockedCount ∧ (a.redCount < b.redCount
        ∨ (a.redCount = b.redCount ∧ (b.totalScore < a.totalScore
        ∨ (a.totalScore = b.totalScore ∧ b.greenCount ≤ a.greenCount)))))) := by
  unfold slotCmp
  split_ifs <;> omega

/-- The comparator preorder is total. -/
theorem slotLe_total (a b : SlotResult) : slotLe a b || slotLe b a := by
  simp only [slotLe, Bool.or_eq_true, decide_eq_true_eq, slotCmp_le_iff]
  omega

/-- The comparator preorder is transitive. -/
theorem slotLe_trans (a b c : SlotResult) : slotLe a b → slotLe b c → slotLe a c := by
  simp only [slotLe, decide_eq_true_eq, slotCmp_le_iff]
  omega

/-! ## Demonstration inputs used by the witnesses -/

/-- A degenerate Time Conversion Adapter mapping every slot to local 09:00. -/
def constConv : TimeConv := fun _ _ _ =>
  { localMin := 540, localISO := "", localLabel := "09:00", localDate := "2026-02-25" }

/-- A participant in UTC with no windows and no preference. -/
def demoAlice : User :=
  { name := "Alice", timezone := some "UTC", team := none, preference := none,
    noMeetingWindows := none }

/-- A second participant in UTC. -/
def demoBob : User :=
  { name := "Bob", timezone := some "UTC", team := none, preference := none,
    noMeetingWindows := none }

/-- Default options for a fixed date. -/
def demoOpts : Opts := { dateISO := "2026-02-25" }

/-- Options that select only Bob but designate Alice as "yourself". -/
def demoOptsSel : Opts :=
  { dateISO := "2026-02-25", selectedNames := some ["Bob"],
    includeYourselfName := some "Alice" }

/-- The slot record produced for Alice alone under `constConv`. -/
def demoSlot0 : SlotResult :=
  { utcStartMin := 0, totalScore := 3, greenCount := 1, yellowCount := 0, redCount := 0,
    blockedCount := 0, participantsCount := 1, redParticipants := some [] }

/-- A slot with no blocked participants but a low score. -/
def demoSlotLowBlock : SlotResult :=
  { utcStartMin := 0, totalScore := -50, greenCount := 0, yellowCount := 0, redCount := 0,
    blockedCount := 0, participantsCount := 2, redParticipants := none }

/-- A slot with one blocked participant but a high score. -/
def demoSlotHighBlock : SlotResult :=
  { utcStartMin := 30, totalScore := 100, greenCount := 2, yellowCount := 0, redCount := 0,
    blockedCount := 1, participantsCount := 2, redParticipants := none }

/-- A slot tying with `demoSlotTieB` on all four comparator keys. -/
def demoSlotTieA : SlotResult :=
  { utcStartMin := 0, totalScore := 5, greenCount := 1, yellowCount := 0, redCount := 0,
    blockedCount := 0, participantsCount := 1, redParticipants := none }

/-- A distinct slot tying with `demoSlotTieA` on all four comparator keys. -/
def demoSlotTieB : SlotResult := { demoSlotTieA with utcStartMin := 30 }

/-- A date-unscoped 12:00-13:00 window. -/
def demoWindow : Window := { start := "12:00", stop := "13:00", date := none }

/-- Changing only the `yellow2` score of a rule set. -/
def setYellow2Score (r : Rules) (x : Int) : Rules :=
  { r with yellow2 := { r.yellow2 with score := x } }

/-! ## Claim theorems -/

/-- C1: for every local minute-of-day and every range, `isInRange` returns
true when start equals end (full day), tests `start ≤ t < end` when
start < end, and tests `t ≥ start or t < end` when start > end (wrap past
midnight). -/
theorem isInRange_case_semantics (t s e : Int) :
    (s = e → isInRange t s e = true)
    ∧ (s < e → isInRange t s e = (decide (s ≤ t) && decide (t < e)))
    ∧ (s > e → isInRange t s e = (decide (s ≤ t) || decide (t < e))) := by
  refine ⟨fun h => ?_, fun h => ?_, fun h => ?_⟩
  · subst h; simp [isInRange, isInRangeJS, jsEq]
  · have h1 : (s == e) = false := by simp; omega
    have h2 : (decide (s < e)) = true := by simp [h]
    simp [isInRange, isInRangeJS, jsEq, jsLt, jsGe, h1, h2]
  · have h1 : (s == e) = false := by simp; omega
    have h2 : (decide (s < e)) = false := by simp; omega
    simp [isInRange, isInRangeJS, jsEq, jsLt, jsGe, h1, h2]

/-- C1 witness: the three cases at concrete inputs. -/
theorem isInRange_case_semantics_witness :
    isInRange 100 300 300 = true
    ∧ isInRange 400 300 600 = (decide ((300 : Int) ≤ 400) && decide ((400 : Int) < 600))
    ∧ isInRange 30 1380 60 = (decide ((1380 : Int) ≤ 30) || decide ((30 : Int) < 60)) :=
  ⟨(isInRange_case_semantics 100 300 300).1 rfl,
   (isInRange_case_semantics 400 300 600).2.1 (by decide),
   (isInRange_case_semantics 30 1380 60).2.2 (by decide)⟩

/-- C2: in every slot record produced by `scoreSlots48`, the four counters
sum to the participant count: each participant of the working set contributes
exactly one band classification or one block classification. -/
theorem counts_partition_participants (conv : TimeConv) (users : List User) (o : Opts) :
    ∀ s ∈ (scoreSlots48 conv users o).slots,
      s.greenCount + s.yellowCount + s.redCount + s.blockedCount = s.participantsCount := by
  intro s hs
  simp only [scoreSlots48, List.mem_map] at hs
  obtain ⟨utc, -, rfl⟩ := hs
  obtain ⟨h1, h2, h3, h4, h5⟩ := foldl_stepUser_spec conv o.dateISO o.rules utc
    (buildParticipants users o) (initAcc o.includeRedParticipants)
  have hp := countP_band_partition conv o.dateISO o.rules utc (buildParticipants users o)
  simp only [slotFor]
  rw [h2, h3, h4, h5]
  simp only [initAcc]
  omega

/-- C2 witness: a concrete slot record of a concrete run. -/
theorem counts_partition_participants_witness :
    demoSlot0 ∈ (scoreSlots48 constConv [demoAlice] demoOpts).slots
    ∧ demoSlot0.greenCount + demoSlot0.yellowCount + demoSlot0.redCount
        + demoSlot0.blockedCount = demoSlot0.participantsCount :=
  ⟨by decide, counts_partition_participants constConv [demoAlice] demoOpts demoSlot0 (by decide)⟩

/-- C3: each slot's totalScore is the sum over participants of the blocked
penalty (when blocked) or base score plus boost (when not); blocked
participants never reach band or boost computation and are counted only in
the blocked counter, while each band counter counts exactly the unblocked
participants of that band. -/
theorem totalScore_is_sum_of_contributions (conv : TimeConv) (users : List User) (o : Opts) :
    ∀ s ∈ (scoreSlots48 conv users o).slots,
      s.totalScore = ((buildParticipants users o).map
          (userContribution conv o.dateISO o.rules s.utcStartMin)).sum
      ∧ s.blockedCount = (buildParticipants users o).countP
          (userBlockedAt conv o.dateISO s.utcStartMin)
      ∧ s.greenCount = (buildParticipants users o).countP
          (userGreen conv o.dateISO o.rules s.utcStartMin)
      ∧ s.yellowCount = (buildParticipants users o).countP
          (userYellow conv o.dateISO o.rules s.utcStartMin)
      ∧ s.redCount = (buildParticipants users o).countP
          (userRed conv o.dateISO o.rules s.utcStartMin) := by
  intro s hs
  simp only [scoreSlots48, List.mem_map] at hs
  obtain ⟨utc, -, rfl⟩ := hs
  obtain ⟨h1, h2, h3, h4, h5⟩ := foldl_stepUser_spec conv o.dateISO o.rules utc
    (buildParticipants users o) (initAcc o.includeRedParticipants)
  simp only [slotFor]
  rw [h1, h2, h3, h4, h5]
  simp only [initAcc]
  refine ⟨by omega, by omega, by omega, by omega, by omega⟩

/-- C3 witness: the total of a concrete slot equals the contribution sum. -/
theorem totalScore_is_sum_of_contributions_witness :
    demoSlot0 ∈ (scoreSlots48 constConv [demoAlice] demoOpts).slots
    ∧ demoSlot0.totalScore = ((buildParticipants [demoAlice] demoOpts).map
        (userContribution constConv demoOpts.dateISO demoOpts.rules demoSlot0.utcStartMin)).sum :=
  ⟨by decide,
   (totalScore_is_sum_of_contributions constConv [demoAlice] demoOpts demoSlot0 (by decide)).1⟩

/-- C4: the ranking comparator orders slot records by strict priority —
fewer blocked, then fewer red, then higher total score, then higher green
count — and the output of `rankSlots` is sorted by it; in particular fewer
blocked participants wins regardless of total score. -/
theorem rankSlots_strict_priority :
    (∀ a b : SlotResult, slotCmp a b < 0 ↔
      (a.blockedCount < b.blockedCount
        ∨ (a.blockedCount = b.blockedCount ∧ (a.redCount < b.redCount
        ∨ (a.redCount = b.redCount ∧ (b.totalScore < a.totalScore
        ∨ (a.totalScore = b.totalScore ∧ b.greenCount < a.greenCount)))))))
    ∧ (∀ a b : SlotResult, a.blockedCount < b.blockedCount → slotCmp a b < 0)
    ∧ (∀ slots : List SlotResult, (rankSlots slots).Pairwise (fun x y => slotLe x y = true)) := by
  refine ⟨slotCmp_lt_iff, fun a b h => (slotCmp_lt_iff a b).mpr (Or.inl h), fun slots => ?_⟩
  simp only [rankSlots]
  exact List.sorted_mergeSort slotLe_trans slotLe_total slots

/-- C4 witness: a slot with fewer blocked participants and a lower total
score still compares strictly before one with more blocked participants. -/
theorem rankSlots_strict_priority_witness :
    demoSlotLowBlock.blockedCount < demoSlotHighBlock.blockedCount
    ∧ slotCmp demoSlotLowBlock demoSlotHighBlock < 0 :=
  ⟨by decide, (rankSlots_strict_priority).2.1 demoSlotLowBlock demoSlotHighBlock (by decide)⟩

/-- C5: `rankSlots` returns a reordering of its input (a fresh sequence, the
input value itself untouched in this pure embedding), slots tied on all four
comparator keys keep their relative input order, and re-ranking an already
ranked list changes nothing. -/
theorem rankSlots_nondestructive_stable_idempotent :
    (∀ slots : List SlotResult, (rankSlots slots).Perm slots)
    ∧ (∀ (slots : List SlotResult) (a b : SlotResult),
        slotCmp a b = 0 → List.Sublist [a, b] slots
          → List.Sublist [a, b] (rankSlots slots))
    ∧ (∀ slots : List SlotResult, rankSlots (rankSlots slots) = rankSlots slots) := by
  refine ⟨fun slots => List.mergeSort_perm slots slotLe, ?_, fun slots => ?_⟩
  · intro slots a b hcmp hsub
    simp only [rankSlots]
    exact List.pair_sublist_mergeSort slotLe_trans slotLe_total
      (by simp [slotLe, hcmp]) hsub
  · simp only [rankSlots]
    exact List.mergeSort_of_sorted (List.sorted_mergeSort slotLe_trans slotLe_total slots)

/-- C5 witness: two distinct records tied on all four keys keep their order. -/
theorem rankSlots_nondestructive_stable_idempotent_witness :
    slotCmp demoSlotTieA demoSlotTieB = 0
    ∧ List.Sublist [demoSlotTieA, demoSlotTieB] (rankSlots [demoSlotTieA, demoSlotTieB]) :=
  ⟨by decide, (rankSlots_nondestructive_stable_idempotent).2.1 [demoSlotTieA, demoSlotTieB]
      demoSlotTieA demoSlotTieB (by decide) (List.Sublist.refl _)⟩

/-- C6: `isBlocked` is true iff some window of the list matches under the
range-test semantics, where a window with a non-empty date only matches when
the local date equals it by string equality and a window without a date
matches on range alone; absent or empty window lists give false. -/
theorem isBlocked_window_semantics :
    (∀ (m : Int) (d : Option String), isBlocked m none d = false)
    ∧ (∀ (m : Int) (d : Option String), isBlocked m (some []) d = false)
    ∧ (∀ (m : Int) (ws : List Window) (d : Option String),
        isBlocked m (some ws) d = true ↔
          ∃ w ∈ ws,
            (∀ dd : String, w.date = some dd → dd ≠ "" → d = some dd)
            ∧ isInRangeJS (some m) (parseHHMMToMinutes w.start) (parseHHMMToMinutes w.stop) = true) := by
  refine ⟨fun m d => rfl, fun m d => rfl, fun m ws d => ?_⟩
  simp only [isBlocked, List.any_eq_true]
  constructor
  · rintro ⟨w, hw, hmatch⟩
    rw [windowMatches, Bool.and_eq_true] at hmatch
    obtain ⟨hgate, hrange⟩ := hmatch
    refine ⟨w, hw, ?_, hrange⟩
    intro dd hdd hne
    rw [hdd] at hgate
    cases d with
    | none => simp [hne] at hgate
    | some ld =>
      simp [hne] at hgate
      rw [hgate]
  · rintro ⟨w, hw, hdate, hrange⟩
    refine ⟨w, hw, ?_⟩
    rw [windowMatches, Bool.and_eq_true]
    refine ⟨?_, hrange⟩
    cases hd : w.date with
    | none => rfl
    | some dd =>
      by_cases hne : dd = ""
      · simp [hne]
      · have := hdate dd hd hne
        subst this
        simp [hne]

/-- C6 witness: a local time inside a date-unscoped window is blocked. -/
theorem isBlocked_window_semantics_witness :
    isBlocked 750 (some [demoWindow]) (some "2026-02-25") = true :=
  ((isBlocked_window_semantics).2.2 750 [demoWindow] (some "2026-02-25")).mpr
    ⟨demoWindow, by decide, fun dd hdd _ => by simp [demoWindow] at hdd, by decide⟩

/-- C7: when `includeYourselfName` names a user who is not excluded, passes
the timezone-presence rule, and is not already among the filtered
participants, that user's original record is appended — the filtered list is
kept intact as a prefix of a new list — regardless of the selection set. -/
theorem buildParticipants_yourself_appended
    (users : List User) (o : Opts) (n : String) (y : User)
    (hn : o.includeYourselfName = some n) (hne : n ≠ "")
    (hex : excludeHas o n = false)
    (hfind : users.find? (fun u => u.name == n) = some y)
    (htz : truthyStr y.timezone = true ∨ o.excludeNullTimezones = false)
    (habsent : (users.filter (keepUser o)).find? (fun p => p.name == n) = none) :
    buildParticipants users o = users.filter (keepUser o) ++ [y] := by
  unfold buildParticipants
  rw [hn]
  have hne2 : (n != "") = true := by simpa using hne
  rcases htz with h | h <;> simp [hne2, hex, hfind, habsent, h]

/-- C7 witness: Alice is appended although the selection set names only Bob. -/
theorem buildParticipants_yourself_appended_witness :
    demoOptsSel.includeYourselfName = some "Alice"
    ∧ excludeHas demoOptsSel "Alice" = false
    ∧ [demoAlice, demoBob].find? (fun u => u.name == "Alice") = some demoAlice
    ∧ truthyStr demoAlice.timezone = true
    ∧ ([demoAlice, demoBob].filter (keepUser demoOptsSel)).find? (fun p => p.name == "Alice") = none
    ∧ buildParticipants [demoAlice, demoBob] demoOptsSel
        = [demoAlice, demoBob].filter (keepUser demoOptsSel) ++ [demoAlice] :=
  ⟨rfl, by decide, by decide, by decide, by decide,
   buildParticipants_yourself_appended [demoAlice, demoBob] demoOptsSel "Alice" demoAlice
     rfl (by decide) (by decide) (by decide) (Or.inl (by decide)) (by decide)⟩

/-- C8: the implementation does not reject malformed "HH:MM" strings.  A
non-numeric hour parses to NaN (`none`), and the range test then silently
produces garbage behaviour: the window with start "aa:bb" and end "12:00"
blocks local 01:40 (the wrap branch fires because all NaN comparisons are
false) and does not block 13:20; a non-numeric minute is silently coalesced
to 0.  No InvalidWindowFormat failure exists anywhere in the code. -/
theorem parseHHMM_malformed_silently_accepted :
    parseHHMMToMinutes "aa:bb" = none
    ∧ isBlocked 100 (some [{ start := "aa:bb", stop := "12:00", date := none }])
        (some "2026-02-25") = true
    ∧ isBlocked 800 (some [{ start := "aa:bb", stop := "12:00", date := none }])
        (some "2026-02-25") = false
    ∧ parseHHMMToMinutes "07:xx" = some 420 :=
  ⟨by decide, by decide, by decide, by decide⟩

/-- C9: an empty working participant list is not an error: all 48 slot
records are produced with zero total score, zero counters and a zero
participant count. -/
theorem empty_participants_zero_slots (conv : TimeConv) (users : List User) (o : Opts)
    (h : buildParticipants users o = []) :
    (scoreSlots48 conv users o).slots.length = 48
    ∧ ∀ s ∈ (scoreSlots48 conv users o).slots,
        s.totalScore = 0 ∧ s.greenCount = 0 ∧ s.yellowCount = 0 ∧ s.redCount = 0
        ∧ s.blockedCount = 0 ∧ s.participantsCount = 0 := by
  constructor
  · simp only [scoreSlots48, List.length_map, generateUtcSlots48_length]
  · intro s hs
    simp only [scoreSlots48, List.mem_map, h] at hs
    obtain ⟨utc, -, rfl⟩ := hs
    simp [slotFor, initAcc]

/-- C9 witness: scoring an empty user list. -/
theorem empty_participants_zero_slots_witness :
    buildParticipants [] demoOpts = []
    ∧ ((scoreSlots48 constConv [] demoOpts).slots.length = 48
      ∧ ∀ s ∈ (scoreSlots48 constConv [] demoOpts).slots,
          s.totalScore = 0 ∧ s.greenCount = 0 ∧ s.yellowCount = 0 ∧ s.redCount = 0
          ∧ s.blockedCount = 0 ∧ s.participantsCount = 0) :=
  ⟨rfl, empty_participants_zero_slots constConv [] demoOpts rfl⟩

/-- C10: a local minute in the yellow2 range but not the green range gets
`yellow1.score` as base score, and the `yellow2.score` field is never read:
overriding it leaves the entire `scoreSlots48` output unchanged. -/
theorem yellow2_score_never_read :
    (∀ (m : Int) (r : Rules),
        isInRange m r.yellow2.start r.yellow2.stop = true →
        isInRange m r.green.start r.green.stop = false →
        getBaseScoreAndBand m r = { baseScore := r.yellow1.score, band := "yellow" })
    ∧ (∀ (conv : TimeConv) (users : List User) (o : Opts) (x : Int),
        scoreSlots48 conv users { o with rules := setYellow2Score o.rules x }
          = scoreSlots48 conv users o) := by
  constructor
  · intro m r h1 h2
    simp [getBaseScoreAndBand, h1, h2]
  · intro conv users o x
    rfl

/-- C10 witness: 20:00 is yellow2-but-not-green under the default rules and
scores `yellow1.score`; overriding the yellow2 score to 42 changes nothing. -/
theorem yellow2_score_never_read_witness :
    isInRange 1200 DEFAULT_RULES.yellow2.start DEFAULT_RULES.yellow2.stop = true
    ∧ isInRange 1200 DEFAULT_RULES.green.start DEFAULT_RULES.green.stop = false
    ∧ getBaseScoreAndBand 1200 DEFAULT_RULES
        = { baseScore := DEFAULT_RULES.yellow1.score, band := "yellow" }
    ∧ scoreSlots48 constConv [demoAlice] { demoOpts with rules := setYellow2Score demoOpts.rules 42 }
        = scoreSlots48 constConv [demoAlice] demoOpts :=
  ⟨by decide, by decide,
   (yellow2_score_never_read).1 1200 DEFAULT_RULES (by decide) (by decide),
   (yellow2_score_never_read).2 constConv [demoAlice] demoOpts 42⟩

end BufferScoring
